import Mathlib

/-!
# Verification of the manim-stock-visualization data pipeline and axis state machine

A shallow embedding of the numeric logic of the repository:

* `sampleIndices` / `sampleTable` — the `np.linspace`-based downsampling in
  `StockVisualization.preprocess_data` (`src/manim_stock/visualization/stock.py`);
* `preprocess_portfolio_value` and `preprocess_stock_data` — the dataframe
  utilities in `src/manim_stock/util/finance.py`;
* `svOk` / `barOk` — the constructor assertion checks of
  `StockVisualization.__init__` and `Barplot.__init__`;
* `lineInit`/`lineStep`/`lineRun` and `barInit`/`barStep`/`barRun` — the
  incremental axis-rescaling state machine of `GrowingLineplot.construct`
  and `GrowingBarplot.construct`;
* `stateBarchartRender` — the positional-argument binding of the
  `update_bar_values` call in `GrowingBarplot.State.barchart`;
* `lineConstructInitState` — the indexing performed while building the
  initial `State` in `GrowingLineplot.construct`.

Machine floats are modelled by `ℚ` (the repository only performs field
arithmetic and comparisons on them), numpy integer arrays by `Nat`/`ℚ`
lists, and fallible Python operations by `Except PyError`.
-/

namespace ManimStock

/-- The Python exception kinds that the modelled code can raise. -/
inductive PyError where
  | typeError
  | indexError
  | attributeError
  | keyError
  | valueError
  deriving DecidableEq, Repr

/-! ## `np.max` on 1-D and 2-D arrays -/

/-- `np.max` of a 1-D array, modelled on lists of rationals.  `np.max` of an
empty array raises; the `0` default is never reached by the claims, which
either supply membership facts or nonemptiness hypotheses. -/
def listMax : List ℚ → ℚ
  | [] => 0
  | x :: xs => xs.foldl max x

/-- `np.max` of a 2-D array: the maximum over all entries of all rows. -/
def matMax (rows : List (List ℚ)) : ℚ := listMax rows.flatten

/-- `self.X_indices = np.arange(len(self.X))`, cast to the value type. -/
def xIndices (L : Nat) : List ℚ := (List.range L).map (fun j : ℕ => (j : ℚ))

theorem le_foldl_max (xs : List ℚ) (b : ℚ) : b ≤ xs.foldl max b := by
  induction xs generalizing b with
  | nil => exact le_refl b
  | cons y ys ih => exact le_trans (le_max_left b y) (ih (max b y))

theorem foldl_max_le_of_mem {a : ℚ} {xs : List ℚ} (h : a ∈ xs) (b : ℚ) :
    a ≤ xs.foldl max b := by
  induction xs generalizing b with
  | nil => cases h
  | cons y ys ih =>
    rcases List.mem_cons.mp h with rfl | hmem
    · exact le_trans (le_max_right b a) (le_foldl_max ys (max b a))
    · exact ih hmem (max b y)

theorem foldl_max_mem (xs : List ℚ) (b : ℚ) : xs.foldl max b ∈ b :: xs := by
  induction xs generalizing b with
  | nil => simp [List.foldl]
  | cons y ys ih =>
    rw [List.foldl_cons]
    rcases List.mem_cons.mp (ih (max b y)) with heq | hmem
    · rw [heq]
      rcases max_choice b y with hb | hy
      · rw [hb]; exact List.mem_cons_self _ _
      · rw [hy]; exact List.mem_cons_of_mem _ (List.mem_cons_self _ _)
    · exact List.mem_cons_of_mem _ (List.mem_cons_of_mem _ hmem)

theorem le_listMax_of_mem {a : ℚ} {l : List ℚ} (h : a ∈ l) : a ≤ listMax l := by
  cases l with
  | nil => cases h
  | cons x xs =>
    rcases List.mem_cons.mp h with rfl | hmem
    · exact le_foldl_max xs a
    · exact foldl_max_le_of_mem hmem x

theorem listMax_mem {l : List ℚ} (h : l ≠ []) : listMax l ∈ l := by
  cases l with
  | nil => exact absurd rfl h
  | cons x xs => exact foldl_max_mem xs x

theorem listMax_le_of_subset {l l' : List ℚ} (hne : l ≠ [])
    (hsub : ∀ a ∈ l, a ∈ l') : listMax l ≤ listMax l' :=
  le_listMax_of_mem (hsub _ (listMax_mem hne))

theorem listMax_append_singleton (l : List ℚ) (a : ℚ) (hne : l ≠ []) :
    listMax (l ++ [a]) = max (listMax l) a := by
  cases l with
  | nil => exact absurd rfl hne
  | cons x xs => simp [listMax, List.foldl_append]

/-- `np.max(np.arange(k)) = k - 1` for a nonempty range. -/
theorem listMax_xIndices {k : Nat} (hk : 1 ≤ k) :
    listMax (xIndices k) = ((k - 1 : Nat) : ℚ) := by
  induction k with
  | zero => omega
  | succ n ih =>
    cases Nat.eq_zero_or_pos n with
    | inl h0 => subst h0; simp [xIndices, listMax, List.range_succ]
    | inr hn =>
      have hne : xIndices n ≠ [] := by
        unfold xIndices
        simp only [ne_eq, List.map_eq_nil_iff, List.range_eq_nil]
        omega
      have hmap : xIndices (n + 1) = xIndices n ++ [(n : ℚ)] := by
        simp [xIndices, List.range_succ]
      rw [hmap, listMax_append_singleton _ _ hne, ih hn]
      have hle : ((n - 1 : Nat) : ℚ) ≤ (n : ℚ) := by
        exact_mod_cast Nat.sub_le n 1
      simp [max_eq_right hle]

theorem xIndices_length (L : Nat) : (xIndices L).length = L := by
  simp [xIndices]

theorem xIndices_getD {k L : Nat} (h : k < L) :
    (xIndices L).getD k 0 = (k : ℚ) := by
  rw [List.getD_eq_getElem?_getD]
  simp [xIndices, List.getElem?_map, List.getElem?_range h]

theorem xIndices_take (k L : Nat) :
    (xIndices L).take k = xIndices (min k L) := by
  unfold xIndices
  rw [← List.map_take, List.take_range]

/-! ## Sampling (`StockVisualization.preprocess_data`)

```python
sample_indices = np.linspace(0, len(self.df) - 1,
                             num=min(self.num_samples, len(self.df)),
                             endpoint=True, dtype=int)
self.df = self.df.iloc[sample_indices]
```

`np.linspace(0, n-1, num=k, endpoint=True, dtype=int)` produces, in exact
arithmetic, the truncations `⌊i·(n-1)/(k-1)⌋` for `i < k` (with the final
point pinned to `n-1`); for `k ≤ 1` it produces `[]` resp. `[0]`.
-/

/-- Index positions selected by `preprocess_data` for a series of length `n`
and a requested sample count `m`; `min m n` is the `num` argument of
`np.linspace`. -/
def sampleIndices (n m : Nat) : List Nat :=
  if min m n ≤ 1 then List.range (min m n)
  else (List.range (min m n)).map (fun i => i * (n - 1) / (min m n - 1))

/-- The sampled X column: `self.df.iloc[sample_indices]` restricted to the
first column.  All selected indices are in range, so the `getD` default is
never used. -/
def sampleTable (xs : List ℚ) (m : Nat) : List ℚ :=
  (sampleIndices xs.length m).map (fun i => xs.getD i 0)

theorem sampleIndices_length (n m : Nat) :
    (sampleIndices n m).length = min m n := by
  unfold sampleIndices
  by_cases h : min m n ≤ 1 <;> simp [h]

theorem sampleIndices_eq {n m : Nat} (h2 : 2 ≤ m) (hmn : m ≤ n) :
    sampleIndices n m = (List.range m).map (fun i => i * (n - 1) / (m - 1)) := by
  have hk : min m n = m := min_eq_left hmn
  unfold sampleIndices
  rw [hk, if_neg (by omega)]

theorem sample_step_mono {n m : Nat} (h2 : 2 ≤ m) (hmn : m ≤ n) (i : Nat) :
    i * (n - 1) / (m - 1) + 1 ≤ (i + 1) * (n - 1) / (m - 1) := by
  have hpos : 0 < m - 1 := by omega
  have hstep : i * (n - 1) + (m - 1) ≤ (i + 1) * (n - 1) := by
    have : m - 1 ≤ n - 1 := by omega
    calc i * (n - 1) + (m - 1) ≤ i * (n - 1) + (n - 1) := by omega
      _ = (i + 1) * (n - 1) := by ring
  calc i * (n - 1) / (m - 1) + 1 = (i * (n - 1) + (m - 1)) / (m - 1) := by
        rw [Nat.add_div_right _ hpos]
    _ ≤ (i + 1) * (n - 1) / (m - 1) := Nat.div_le_div_right hstep

theorem sample_lt_of_lt {n m : Nat} (h2 : 2 ≤ m) (hmn : m ≤ n) {a b : Nat}
    (hab : a < b) : a * (n - 1) / (m - 1) < b * (n - 1) / (m - 1) := by
  have h1 := sample_step_mono h2 hmn a
  have h2b : (a + 1) * (n - 1) / (m - 1) ≤ b * (n - 1) / (m - 1) :=
    Nat.div_le_div_right (Nat.mul_le_mul_right _ (by omega))
  omega

theorem sampleIndices_pairwise {n m : Nat} (h2 : 2 ≤ m) (hmn : m ≤ n) :
    (sampleIndices n m).Pairwise (· < ·) := by
  rw [sampleIndices_eq h2 hmn, List.pairwise_map]
  exact (List.pairwise_lt_range m).imp (fun hab => sample_lt_of_lt h2 hmn hab)

theorem range_split {m : Nat} (h2 : 2 ≤ m) :
    List.range m = List.range (m - 1) ++ [m - 1] := by
  have h : m = (m - 1) + 1 := by omega
  conv_lhs => rw [h, List.range_succ]

theorem sampleIndices_head {n m : Nat} (h2 : 2 ≤ m) (hmn : m ≤ n) :
    (sampleIndices n m).head? = some 0 := by
  rw [sampleIndices_eq h2 hmn]
  obtain ⟨m', rfl⟩ : ∃ m', m = m' + 1 := ⟨m - 1, by omega⟩
  rw [List.range_succ_eq_map]
  simp

theorem sampleIndices_getLast {n m : Nat} (h2 : 2 ≤ m) (hmn : m ≤ n) :
    (sampleIndices n m).getLast? = some (n - 1) := by
  rw [sampleIndices_eq h2 hmn, range_split h2, List.map_append]
  rw [List.map_singleton, List.getLast?_concat]
  have hpos : 0 < m - 1 := by omega
  rw [Nat.mul_div_cancel_left _ hpos]

theorem sampleIndices_le {n m : Nat} (h2 : 2 ≤ m) (hmn : m ≤ n) :
    ∀ j ∈ sampleIndices n m, j ≤ n - 1 := by
  intro j hj
  rw [sampleIndices_eq h2 hmn] at hj
  obtain ⟨i, hi, rfl⟩ := List.mem_map.mp hj
  have hpos : 0 < m - 1 := by omega
  calc i * (n - 1) / (m - 1) ≤ (m - 1) * (n - 1) / (m - 1) :=
        Nat.div_le_div_right (Nat.mul_le_mul_right _ (by
          have := List.mem_range.mp hi; omega))
    _ = n - 1 := Nat.mul_div_cancel_left _ hpos

theorem sampleIndices_getD {n m : Nat} (h2 : 2 ≤ m) (hmn : m ≤ n) {i : Nat}
    (hi : i < m) : (sampleIndices n m).getD i 0 = i * (n - 1) / (m - 1) := by
  rw [sampleIndices_eq h2 hmn, List.getD_eq_getElem?_getD]
  simp [List.getElem?_map, List.getElem?_range hi]

theorem getLast?_eq_getD {l : List ℚ} (h : l ≠ []) :
    l.getLast? = some (l.getD (l.length - 1) 0) := by
  rw [List.getLast?_eq_getElem?, List.getD_eq_getElem?_getD]
  have hlt : l.length - 1 < l.length := by
    cases l with
    | nil => exact absurd rfl h
    | cons x xs => simp
  rw [List.getElem?_eq_getElem hlt]
  rfl

theorem sampleTable_length (xs : List ℚ) (m : Nat) :
    (sampleTable xs m).length = min m xs.length := by
  simp [sampleTable, sampleIndices_length]

theorem sampleTable_head {m : Nat} (xs : List ℚ) (h2 : 2 ≤ m)
    (hmn : m ≤ xs.length) : (sampleTable xs m).head? = xs.head? := by
  unfold sampleTable
  rw [List.head?_map, sampleIndices_head h2 hmn]
  cases xs with
  | nil => simp at hmn; omega
  | cons a l => rfl

theorem sampleTable_getLast {m : Nat} (xs : List ℚ) (h2 : 2 ≤ m)
    (hmn : m ≤ xs.length) : (sampleTable xs m).getLast? = xs.getLast? := by
  have hne : xs ≠ [] := by
    intro h
    rw [h] at hmn
    simp at hmn
    omega
  unfold sampleTable
  rw [sampleIndices_eq h2 hmn, range_split h2, List.map_append, List.map_append]
  rw [List.map_singleton, List.map_singleton, List.getLast?_concat]
  rw [Nat.mul_div_cancel_left _ (show 0 < m - 1 by omega)]
  rw [getLast?_eq_getD hne]

/-- **C5** (as stated, counterexample): for series length `n = 2` and target
`num_samples = m = 1` (so `m ≤ n`), sampling selects only index `0`; the
endpoint `n - 1 = 1` is not selected, contradicting the claim that both
endpoints are always included. -/
theorem c5_sampling_counterexample :
    sampleIndices 2 1 = [0] ∧ (1 : Nat) ∉ sampleIndices 2 1 := by decide

/-- **C5** (amended): for every series of length `n` and target
`num_samples = m` with `2 ≤ m ≤ n`, sampling selects exactly
`min m n = m` strictly increasing index positions, evenly spaced with
integer truncation (`i * (n-1) / (m-1)`) over `[0, n-1]`, including both
endpoints `0` and `n-1`; the sampled table has exactly `m` rows and
preserves the first and last X values.  (For `m = 1 < n` only index `0` is
selected, so the last endpoint is not preserved.) -/
theorem c5_sampling_amended (n m : Nat) (xs : List ℚ) (h2 : 2 ≤ m)
    (hmn : m ≤ n) (hxs : xs.length = n) :
    (sampleIndices n m).length = m
    ∧ (sampleIndices n m).Pairwise (· < ·)
    ∧ (sampleIndices n m).head? = some 0
    ∧ (sampleIndices n m).getLast? = some (n - 1)
    ∧ (∀ j ∈ sampleIndices n m, j ≤ n - 1)
    ∧ (∀ i, i < m → (sampleIndices n m).getD i 0 = i * (n - 1) / (m - 1))
    ∧ (sampleTable xs m).length = m
    ∧ (sampleTable xs m).head? = xs.head?
    ∧ (sampleTable xs m).getLast? = xs.getLast? := by
  subst hxs
  refine ⟨?_, sampleIndices_pairwise h2 hmn, sampleIndices_head h2 hmn,
    sampleIndices_getLast h2 hmn, sampleIndices_le h2 hmn,
    fun i hi => sampleIndices_getD h2 hmn hi, ?_,
    sampleTable_head xs h2 hmn, sampleTable_getLast xs h2 hmn⟩
  · rw [sampleIndices_length, min_eq_left hmn]
  · rw [sampleTable_length, min_eq_left hmn]

/-- Witness for `c5_sampling_amended` at `n = 5`, `m = 3`,
`xs = [10, 20, 30, 40, 50]`. -/
theorem c5_sampling_witness :
    2 ≤ 3 ∧ (3 : Nat) ≤ 5 ∧ ([(10 : ℚ), 20, 30, 40, 50].length = 5)
    ∧ (sampleIndices 5 3).head? = some 0
    ∧ (sampleIndices 5 3).getLast? = some 4
    ∧ (sampleTable [(10 : ℚ), 20, 30, 40, 50] 3).getLast?
        = [(10 : ℚ), 20, 30, 40, 50].getLast? :=
  ⟨by decide, by decide, by decide,
    (c5_sampling_amended 5 3 [10, 20, 30, 40, 50] (by decide) (by decide)
      (by decide)).2.2.1,
    (c5_sampling_amended 5 3 [10, 20, 30, 40, 50] (by decide) (by decide)
      (by decide)).2.2.2.1,
    (c5_sampling_amended 5 3 [10, 20, 30, 40, 50] (by decide) (by decide)
      (by decide)).2.2.2.2.2.2.2.2⟩

/-! ## Portfolio-value conversion (`preprocess_portfolio_value`)

```python
shares = init_cash / df[df.columns[1:]].iloc[0]
df[df.columns[1:]] = shares * df[df.columns[1:]]
return df
```

A flat data table is a list of `(column name, values)` pairs whose first
entry is the X column.  Column names are unique (PriceSeries invariant), so
pandas label-aligned broadcasting coincides with the per-column scaling
below.
-/

/-- One data column scaled into portfolio value:
`shares = init_cash / price[0]`, `value[t] = shares * price[t]`.
(`ℚ` division by zero yields `0` where floats would produce `inf`; the
claims only concern positive initial prices, where the two agree.) -/
def scaleColumn (init_cash : ℚ) (vs : List ℚ) : List ℚ :=
  vs.map (fun v => init_cash / vs.headD 0 * v)

/-- `preprocess_portfolio_value(df, init_cash)` from
`src/manim_stock/util/finance.py`: every column except the first is scaled
elementwise by `init_cash / column[0]`.  `iloc[0]` on a frame without rows
raises, modelled by `indexError`. -/
def preprocess_portfolio_value (cols : List (String × List ℚ))
    (init_cash : ℚ) : Except PyError (List (String × List ℚ)) :=
  match cols with
  | [] => .ok []
  | x :: ys =>
    if ys.any (fun c => c.2.isEmpty) then .error .indexError
    else .ok (x :: ys.map (fun c => (c.1, scaleColumn init_cash c.2)))

theorem getD_map_lt {f : ℚ → ℚ} {l : List ℚ} {t : Nat} (h : t < l.length)
    (d e : ℚ) : (l.map f).getD t d = f (l.getD t e) := by
  rw [List.getD_eq_getElem?_getD, List.getD_eq_getElem?_getD,
    List.getElem?_map, List.getElem?_eq_getElem h]
  rfl

/-- **C6**: for every price table whose first-row prices are all positive
and every initial cash amount, portfolio-value conversion succeeds and scales
each ticker column elementwise by `init_cash / price[0]`: the converted
value at the first row equals `init_cash` for every ticker,
`value[t] = init_cash * price[t] / price[0]` for every row, and the first
(X) column (and every column name) is unchanged. -/
theorem c6_portfolio_value (x : String × List ℚ)
    (ys : List (String × List ℚ)) (cash : ℚ)
    (hpos : ∀ c ∈ ys, 0 < c.2.headD 0) :
    preprocess_portfolio_value (x :: ys) cash
      = Except.ok (x :: ys.map (fun c => (c.1, scaleColumn cash c.2)))
    ∧ ∀ c ∈ ys, (scaleColumn cash c.2).length = c.2.length
        ∧ (scaleColumn cash c.2).headD 0 = cash
        ∧ ∀ t, t < c.2.length →
            (scaleColumn cash c.2).getD t 0
              = cash * c.2.getD t 0 / c.2.headD 0 := by
  constructor
  · have hany : ys.any (fun c => c.2.isEmpty) = false := by
      rw [List.any_eq_false]
      intro c hc
      have := hpos c hc
      cases h : c.2 with
      | nil => rw [h] at this; simp at this
      | cons v vs => simp [h]
    simp [preprocess_portfolio_value, hany]
  · intro c hc
    have hvpos := hpos c hc
    obtain ⟨v, vs, hv⟩ : ∃ v vs, c.2 = v :: vs := by
      cases h : c.2 with
      | nil => rw [h] at hvpos; simp at hvpos
      | cons v vs => exact ⟨v, vs, rfl⟩
    have hv0 : c.2.headD 0 = v := by rw [hv]; rfl
    have hvne : v ≠ 0 := by
      rw [hv0] at hvpos
      exact ne_of_gt hvpos
    refine ⟨by simp [scaleColumn], ?_, ?_⟩
    · rw [hv]
      show cash / (v :: vs).headD 0 * v = cash
      rw [show ((v : ℚ) :: vs).headD 0 = v from rfl]
      exact div_mul_cancel₀ cash hvne
    · intro t ht
      unfold scaleColumn
      rw [getD_map_lt ht 0 0, div_mul_eq_mul_div]

/-- Witness for `c6_portfolio_value`: table `X = [1, 2]`, one ticker column
`A = [2, 4]`, initial cash `100`. -/
theorem c6_portfolio_value_witness :
    (∀ c ∈ [(("A", [(2 : ℚ), 4]) : String × List ℚ)], 0 < c.2.headD 0)
    ∧ (scaleColumn 100 [(2 : ℚ), 4]).headD 0 = 100
    ∧ (scaleColumn 100 [(2 : ℚ), 4]).getD 1 0
        = 100 * ([(2 : ℚ), 4].getD 1 0) / ([(2 : ℚ), 4].headD 0) :=
  ⟨by decide,
    ((c6_portfolio_value ("X", [1, 2]) [("A", [2, 4])] 100 (by decide)).2
      ("A", [2, 4]) (by simp)).2.1,
    ((c6_portfolio_value ("X", [1, 2]) [("A", [2, 4])] 100 (by decide)).2
      ("A", [2, 4]) (by simp)).2.2 1 (by decide)⟩

/-! ## Data reshaping (`preprocess_stock_data`)

```python
levels = [[column], list(df.columns.levels[1])]
multi_index = list(itertools.product(*levels))
data = {"Year": df.index.strftime("%Y").to_numpy(dtype=int)}
for column, ticker in multi_index:
    data[ticker] = df[(column, ticker)].to_numpy(dtype=float)
return pd.DataFrame(data).dropna(inplace=False)
```

A pandas frame is modelled with its column index (flat, or a two-level
MultiIndex whose `.levels` are exposed), its row index (a RangeIndex, which
has no `strftime`, or a DatetimeIndex carrying the `"%Y"` years), and its
cell data keyed by column key (`[name]` for flat, `[field, ticker]` for
multi-indexed); `none` cells are NaN.  Accessing `.levels` on a flat column
index and `.strftime` on a RangeIndex raise `AttributeError`.
-/

/-- A pandas column index. -/
inductive PyCols where
  | flat (names : List String)
  | multi (level0 level1 : List String)
  deriving DecidableEq, Repr

/-- A pandas row index. -/
inductive PyIndex where
  | rangeIdx (n : Nat)
  | datetimeIdx (years : List Int)
  deriving DecidableEq, Repr

/-- A pandas DataFrame, restricted to the shapes the repository handles. -/
structure PyDF where
  cols : PyCols
  index : PyIndex
  data : List (List String × List (Option ℚ))
  deriving DecidableEq, Repr

/-- `df[key]`: column lookup, `none` when the key is missing (KeyError). -/
def lookupCol (df : PyDF) (key : List String) : Option (List (Option ℚ)) :=
  (df.data.find? (fun kv => kv.1 == key)).map (fun kv => kv.2)

/-- Python dict insertion: overwrite in place if present, else append. -/
def insertAssoc (m : List (String × List (Option ℚ))) (k : String)
    (v : List (Option ℚ)) : List (String × List (Option ℚ)) :=
  if m.any (fun kv => kv.1 == k) then
    m.map (fun kv => if kv.1 == k then (k, v) else kv)
  else m ++ [(k, v)]

/-- The dict built by the `for column, ticker in multi_index` loop, starting
from `{"Year": years}`. -/
def buildColumns (df : PyDF) (column : String) (lvl1 : List String)
    (years : List Int) : Except PyError (List (String × List (Option ℚ))) :=
  lvl1.foldlM
    (fun acc t =>
      match lookupCol df [column, t] with
      | none => Except.error PyError.keyError
      | some vs => Except.ok (insertAssoc acc t vs))
    [("Year", years.map (fun y : Int => some (y : ℚ)))]

/-- `pd.DataFrame(data).dropna(inplace=False)`: requires equally long
columns, keeps the rows in which every column holds a value, and produces a
frame with a flat column index and a RangeIndex. -/
def framedOfData (years : List Int)
    (data : List (String × List (Option ℚ))) : Except PyError PyDF :=
  let keep := (List.range years.length).filter
    (fun i => data.all (fun kv => (kv.2.getD i none).isSome))
  if data.all (fun kv => kv.2.length == years.length) then
    Except.ok
      { cols := PyCols.flat (data.map (fun kv => kv.1))
        index := PyIndex.rangeIdx keep.length
        data := data.map (fun kv => ([kv.1], keep.map (fun i => kv.2.getD i none))) }
  else Except.error PyError.valueError

/-- `preprocess_stock_data(df, column)` from `src/manim_stock/util/finance.py`. -/
def preprocess_stock_data (df : PyDF) (column : String) : Except PyError PyDF :=
  match df.cols with
  | .flat _ => .error .attributeError
  | .multi _ lvl1 =>
    match df.index with
    | .rangeIdx _ => .error .attributeError
    | .datetimeIdx years => (buildColumns df column lvl1 years).bind (framedOfData years)

theorem framedOfData_flat {years : List Int}
    {data : List (String × List (Option ℚ))} {out : PyDF}
    (h : framedOfData years data = Except.ok out) :
    ∃ names, out.cols = PyCols.flat names := by
  unfold framedOfData at h
  by_cases hall : data.all (fun kv => kv.2.length == years.length)
  · rw [if_pos hall] at h
    cases h
    exact ⟨_, rfl⟩
  · rw [if_neg hall] at h
    cases h

theorem preprocess_flat_fails {out : PyDF} {column : String}
    (h : ∃ names, out.cols = PyCols.flat names) :
    preprocess_stock_data out column = Except.error PyError.attributeError := by
  obtain ⟨names, hn⟩ := h
  unfold preprocess_stock_data
  rw [hn]

/-- A concrete two-level price frame: one ticker, two periods. -/
def df0 : PyDF :=
  { cols := PyCols.multi ["High"] ["AAPL"]
    index := PyIndex.datetimeIdx [2020, 2021]
    data := [(["High", "AAPL"], [some 1, some 2])] }

/-- The flat frame `preprocess_stock_data` produces from `df0`. -/
def flatOut : PyDF :=
  { cols := PyCols.flat ["Year", "AAPL"]
    index := PyIndex.rangeIdx 2
    data := [(["Year"], [some 2020, some 2021]), (["AAPL"], [some 1, some 2])] }

/-- **C7** (as stated, counterexample): the reshape is *not* idempotent on
an already-flat table: applied to its own output `flatOut` (with the same
chosen column), it raises `AttributeError` (`df.columns.levels` does not
exist on a flat column index) instead of returning the same table. -/
theorem c7_reshape_counterexample :
    preprocess_stock_data df0 "High" = Except.ok flatOut
    ∧ preprocess_stock_data flatOut "High"
        = Except.error PyError.attributeError := by
  constructor
  · rfl
  · rfl

/-- **C7** (amended): the reshape always fails on its own output: every
table produced by `preprocess_stock_data` has a flat column index, and
re-applying the operation to it raises an `AttributeError` (at
`df.columns.levels`) rather than returning the table unchanged — the
operation is not idempotent on flat tables. -/
theorem c7_reshape_amended (df : PyDF) (column : String) (out : PyDF)
    (h : preprocess_stock_data df column = Except.ok out) :
    preprocess_stock_data out column = Except.error PyError.attributeError := by
  apply preprocess_flat_fails
  obtain ⟨cols, index, dat⟩ := df
  cases cols with
  | flat names => exact absurd h (by simp [preprocess_stock_data])
  | multi l0 l1 =>
    cases index with
    | rangeIdx n => exact absurd h (by simp [preprocess_stock_data])
    | datetimeIdx years =>
      simp only [preprocess_stock_data] at h
      cases hb : buildColumns ⟨PyCols.multi l0 l1, PyIndex.datetimeIdx years, dat⟩
          column l1 years with
      | error e =>
        rw [hb] at h
        cases h
      | ok d =>
        rw [hb] at h
        exact framedOfData_flat h

/-- Witness for `c7_reshape_amended` at the concrete frame `df0`. -/
theorem c7_reshape_witness :
    preprocess_stock_data df0 "High" = Except.ok flatOut
    ∧ preprocess_stock_data flatOut "High"
        = Except.error PyError.attributeError :=
  ⟨by rfl, c7_reshape_amended df0 "High" flatOut (by rfl)⟩

/-! ## Constructor validation (`StockVisualization.__init__`, `Barplot.__init__`)

Both constructors run a fixed sequence of `assert` statements before any
rendering.  The model records the constructor arguments each assertion
inspects, plus the two filesystem facts (`os.path.exists(path)`,
`path.endswith(".csv")`) and the ticker count `self.Y.shape[-1]` derived
from the loaded data; data loading itself is assumed to succeed.
-/

/-- Arguments inspected by the assertions of `StockVisualization.__init__`.
A bare string passed as `colors` becomes a singleton list before the
length check, so `colors` is `none` or a list here. -/
structure SVArgs where
  path_exists : Bool
  path_is_csv : Bool
  background_run_time : ℚ
  animation_run_time : ℚ
  wait_run_time : ℚ
  camera_scale : ℚ
  num_ticks : Int
  num_samples : Int
  colors : Option (List String)
  num_tickers : Nat

/-- The default palette of `StockVisualization.__init__`, truncated to the
ticker count by `[: self.Y.shape[-1]]` when `colors is None`. -/
def defaultColors : List String :=
  ["#1f77b4", "#ff7f0e", "#2ca02c", "#d62728", "#9467bd"]

/-- The colors list whose length the final assertion compares with the
ticker count. -/
def effectiveColors (a : SVArgs) : List String :=
  match a.colors with
  | none => defaultColors.take a.num_tickers
  | some cs => cs

/-- `svOk a` holds iff every assertion of `StockVisualization.__init__`
passes, in source order: path exists, `.csv` suffix, the three run-times,
camera scale, `num_ticks`, `num_samples` all positive, and
`len(colors) == self.Y.shape[-1]`. -/
def svOk (a : SVArgs) : Prop :=
  a.path_exists = true ∧ a.path_is_csv = true
  ∧ 0 < a.background_run_time ∧ 0 < a.animation_run_time
  ∧ 0 < a.wait_run_time ∧ 0 < a.camera_scale
  ∧ 0 < a.num_ticks ∧ 0 < a.num_samples
  ∧ (effectiveColors a).length = a.num_tickers

instance svOkDecidable (a : SVArgs) : Decidable (svOk a) := by
  unfold svOk
  infer_instance

/-- Arguments inspected by the assertions of `Barplot.__init__`.  A single
ticker string is wrapped into a one-element list before any check, so
`num_tickers` is `1` whenever `tickers_is_list` is `false`. -/
structure BarArgs where
  tickers_is_list : Bool
  num_tickers : Nat
  background_run_time : ℚ
  bar_run_time : ℚ
  wait_run_time : ℚ
  camera_frame_scale : ℚ
  bar_colors : Option (List String)
  bar_width : ℚ
  bar_fill_opacity : ℚ
  bar_stroke_width : ℚ
  num_ticks : Int
  num_samples : Int

/-- The `bar_colors` check of `Barplot.__init__`: only an explicitly given
list is checked, and it must have at least as many colors as tickers. -/
def coversTickers (t : Nat) : Option (List String) → Prop
  | none => True
  | some cs => t ≤ cs.length

instance coversTickersDecidable (t : Nat) :
    (o : Option (List String)) → Decidable (coversTickers t o)
  | none => isTrue trivial
  | some cs => inferInstanceAs (Decidable (t ≤ cs.length))

/-- `barOk a` holds iff every assertion of `Barplot.__init__` passes, in
source order: at most 3 tickers when a list is given, the three run-times
and the camera scale positive, `bar_colors` covering the tickers when
given, `bar_width` and `bar_fill_opacity` in `[0, 1]`, `bar_stroke_width`,
`num_ticks` and `num_samples` positive. -/
def barOk (a : BarArgs) : Prop :=
  (a.tickers_is_list = true → a.num_tickers < 4)
  ∧ 0 < a.background_run_time ∧ 0 < a.bar_run_time ∧ 0 < a.wait_run_time
  ∧ 0 < a.camera_frame_scale
  ∧ coversTickers a.num_tickers a.bar_colors
  ∧ (0 ≤ a.bar_width ∧ a.bar_width ≤ 1)
  ∧ (0 ≤ a.bar_fill_opacity ∧ a.bar_fill_opacity ≤ 1)
  ∧ 0 < a.bar_stroke_width
  ∧ 0 < a.num_ticks ∧ 0 < a.num_samples

instance barOkDecidable (a : BarArgs) : Decidable (barOk a) := by
  unfold barOk
  infer_instance

/-- Modelled from the claim wording: "a colors list that does not cover the
ticker count" — an explicitly provided list shorter than the ticker count. -/
def failsCover (t : Nat) : Option (List String) → Prop
  | none => False
  | some cs => cs.length < t

instance failsCoverDecidable (t : Nat) :
    (o : Option (List String)) → Decidable (failsCover t o)
  | none => isFalse not_false
  | some cs => inferInstanceAs (Decidable (cs.length < t))

/-- Modelled from the claim wording: the constraint list C8 gives for the
base stock-visualization constructor. -/
def claimedViolationSV (a : SVArgs) : Prop :=
  a.path_exists = false ∨ a.path_is_csv = false
  ∨ a.background_run_time ≤ 0 ∨ a.animation_run_time ≤ 0
  ∨ a.wait_run_time ≤ 0 ∨ a.camera_scale ≤ 0
  ∨ a.num_ticks ≤ 0 ∨ a.num_samples ≤ 0
  ∨ failsCover a.num_tickers a.colors

instance claimedViolationSVDecidable (a : SVArgs) :
    Decidable (claimedViolationSV a) := by
  unfold claimedViolationSV
  infer_instance

/-- The constraint set that actually governs `StockVisualization.__init__`:
as claimed, except that the effective colors list (the default palette
truncated to the ticker count when `colors is None`) must have length
*equal* to the ticker count, not merely cover it. -/
def amendedViolationSV (a : SVArgs) : Prop :=
  a.path_exists = false ∨ a.path_is_csv = false
  ∨ a.background_run_time ≤ 0 ∨ a.animation_run_time ≤ 0
  ∨ a.wait_run_time ≤ 0 ∨ a.camera_scale ≤ 0
  ∨ a.num_ticks ≤ 0 ∨ a.num_samples ≤ 0
  ∨ (effectiveColors a).length ≠ a.num_tickers

/-- The constraint set that actually governs `Barplot.__init__`: as
claimed, plus the undocumented rejection of ticker lists with more than 3
entries, and with only an explicitly passed `bar_colors` list checked for
coverage. -/
def amendedViolationBar (a : BarArgs) : Prop :=
  (a.tickers_is_list = true ∧ 4 ≤ a.num_tickers)
  ∨ a.background_run_time ≤ 0 ∨ a.bar_run_time ≤ 0 ∨ a.wait_run_time ≤ 0
  ∨ a.camera_frame_scale ≤ 0
  ∨ failsCover a.num_tickers a.bar_colors
  ∨ a.bar_width < 0 ∨ 1 < a.bar_width
  ∨ a.bar_fill_opacity < 0 ∨ 1 < a.bar_fill_opacity
  ∨ a.bar_stroke_width ≤ 0
  ∨ a.num_ticks ≤ 0 ∨ a.num_samples ≤ 0

theorem not_coversTickers (t : Nat) (o : Option (List String)) :
    ¬ coversTickers t o ↔ failsCover t o := by
  cases o with
  | none => simp [coversTickers, failsCover]
  | some cs => simp [coversTickers, failsCover]

/-- A configuration on which `StockVisualization.__init__` raises an
assertion error although none of the constraints listed by C8 is violated:
everything valid, but a colors list of 3 entries for 2 tickers (it covers
the ticker count, yet the equality assertion fires). -/
def svCounterArgs : SVArgs :=
  { path_exists := true
    path_is_csv := true
    background_run_time := 5
    animation_run_time := 50
    wait_run_time := 5
    camera_scale := 2
    num_ticks := 6
    num_samples := 100
    colors := some ["#1f77b4", "#ff7f0e", "#2ca02c"]
    num_tickers := 2 }

/-- **C8** (as stated, counterexample): at `svCounterArgs` construction
raises an assertion error (`len(colors) == tickers` fails) although no
constraint in the claim's list is violated — the colors list covers the
ticker count and every other parameter is valid.  So "raises iff some
listed constraint is violated" is false. -/
theorem c8_validation_counterexample :
    ¬ svOk svCounterArgs ∧ ¬ claimedViolationSV svCounterArgs := by
  constructor
  · decide
  · decide

/-- **C8** (amended): construction raises an assertion error iff some
constraint of the corrected list is violated: for the base class — path
missing, wrong extension, a non-positive run-time/camera scale/tick
count/sample count, or an effective colors list whose length differs from
the ticker count; for the bar variant — a ticker list with more than 3
entries, a non-positive run-time/camera scale/stroke width/tick
count/sample count, bar width or fill opacity outside `[0, 1]`, or an
explicitly passed `bar_colors` list shorter than the ticker count.  The
assertions all run at construction time, before any rendering. -/
theorem c8_validation_amended (a : SVArgs) (b : BarArgs) :
    (¬ svOk a ↔ amendedViolationSV a) ∧ (¬ barOk b ↔ amendedViolationBar b) := by
  constructor
  · unfold svOk amendedViolationSV
    simp only [not_and_or, not_lt, Bool.not_eq_true, ne_eq]
  · unfold barOk amendedViolationBar
    simp only [not_and_or, not_lt, not_le, Bool.not_eq_true, not_coversTickers,
      Classical.not_imp]
    tauto

/-! ## The incremental axis-rescaling state machine

`GrowingLineplot.construct` and `GrowingBarplot.construct` keep one frozen
`State` dataclass and replace it once per revealed sample.  Data:

* `Y : List (List ℚ)` — the sampled value table `self.Y`, one row per
  sample, one entry per ticker;
* `xIndices Y.length` — `self.X_indices = np.arange(len(self.X))`;
* `c` — the configured `num_ticks` ceiling, `s` — `num_samples`;
* `s / c` — `self.next_indicies = int(self.num_samples / self.num_ticks)`;
* `Y.length` — `len(self.df)` after sampling.
-/

/-- The `State` dataclass of `GrowingLineplot`. -/
structure LineState where
  x_min : ℚ
  x_max : ℚ
  num_x_ticks : Nat
  y_min : ℚ
  y_max : ℚ
  num_y_ticks : Nat
  deriving DecidableEq, Repr

/-- The `State` dataclass of `GrowingBarplot`. -/
structure BarState where
  y_min : ℚ
  y_max : ℚ
  num_y_ticks : Nat
  y_round : Bool
  deriving DecidableEq, Repr

/-- `if state.num_ticks < self.num_ticks: state.replace(num_ticks + 1)` —
the one-shot tick growth both growing animations apply on a rescale. -/
def tickGrow (ceiling t : Nat) : Nat := if t < ceiling then t + 1 else t

/-- The y-axis branch of the step loop, identical in
`GrowingLineplot.construct` and `GrowingBarplot.construct`:

```python
if np.max(self.Y[i]) >= state.y_max:
    if state.num_y_ticks < self.num_ticks:
        state = state.replace(num_y_ticks=state.num_y_ticks + 1)
    state = state.replace(
        y_max=np.max(self.Y[: min(i + self.next_indicies, len(self.df)), :]))
```

Returns the new `(y_max, num_y_ticks)` pair. -/
def yScale (Y : List (List ℚ)) (c s i : Nat) (y_max : ℚ) (ticks : Nat) :
    ℚ × Nat :=
  if listMax (Y.getD i []) ≥ y_max then
    (matMax (Y.take (min (i + s / c) Y.length)), tickGrow c ticks)
  else (y_max, ticks)

/-- The x-axis branch of the step loop of `GrowingLineplot.construct`:

```python
if self.X_indices[i] >= state.x_max:
    if state.num_x_ticks < self.num_ticks:
        state = state.replace(num_x_ticks=state.num_x_ticks + 1)
    state = state.replace(
        x_max=np.max(self.X_indices[: min(i + self.next_indicies, len(self.df))]))
```

Returns the new `(x_max, num_x_ticks)` pair. -/
def xScale (L c s i : Nat) (x_max : ℚ) (ticks : Nat) : ℚ × Nat :=
  if (xIndices L).getD i 0 ≥ x_max then
    (listMax ((xIndices L).take (min (i + s / c) L)), tickGrow c ticks)
  else (x_max, ticks)

/-- The initial `State(...)` of `GrowingLineplot.construct`:
`x_max = X_indices[3 * next_indicies]`,
`y_max = np.max(Y[3 * next_indicies])` (the single row at the look-ahead
index), mins `0`, both tick counts `3`. -/
def lineInit (Y : List (List ℚ)) (c s : Nat) : LineState :=
  { x_min := 0
    x_max := (xIndices Y.length).getD (3 * (s / c)) 0
    num_x_ticks := 3
    y_min := 0
    y_max := listMax (Y.getD (3 * (s / c)) [])
    num_y_ticks := 3 }

/-- One iteration of the `for i in range(1, len(self.df))` loop of
`GrowingLineplot.construct`: the y branch, then the x branch. -/
def lineStep (Y : List (List ℚ)) (c s i : Nat) (st : LineState) : LineState :=
  let y2 := yScale Y c s i st.y_max st.num_y_ticks
  let x2 := xScale Y.length c s i st.x_max st.num_x_ticks
  { st with y_max := y2.1, num_y_ticks := y2.2, x_max := x2.1, num_x_ticks := x2.2 }

/-- The state of `GrowingLineplot.construct` after loop iterations
`1, …, i`. -/
def lineRun (Y : List (List ℚ)) (c s : Nat) : Nat → LineState
  | 0 => lineInit Y c s
  | i + 1 => lineStep Y c s (i + 1) (lineRun Y c s i)

/-- The initial `State(...)` of `GrowingBarplot.construct`. -/
def barInit (Y : List (List ℚ)) (c s : Nat) (r : Bool) : BarState :=
  { y_min := 0
    y_max := listMax (Y.getD (3 * (s / c)) [])
    num_y_ticks := 3
    y_round := r }

/-- One iteration of the step loop of `GrowingBarplot.construct`. -/
def barStep (Y : List (List ℚ)) (c s i : Nat) (st : BarState) : BarState :=
  let y2 := yScale Y c s i st.y_max st.num_y_ticks
  { st with y_max := y2.1, num_y_ticks := y2.2 }

/-- The state of `GrowingBarplot.construct` after loop iterations
`1, …, i`. -/
def barRun (Y : List (List ℚ)) (c s : Nat) (r : Bool) : Nat → BarState
  | 0 => barInit Y c s r
  | i + 1 => barStep Y c s (i + 1) (barRun Y c s r i)

/-- Modelled from the claim wording (C1): on a step where the revealed
value reaches the current axis max, the state is replaced by one with
`num_ticks = min(num_ticks + 1, ceiling)` and `max` recomputed over the
prefix window; otherwise the axis state is unchanged. -/
def specAxisUpdate (c : Nat) (value windowMax mx : ℚ) (ticks : Nat) :
    ℚ × Nat :=
  if value ≥ mx then (windowMax, min (ticks + 1) c) else (mx, ticks)

/-- Modelled from the claim wording (C1): the per-step update of the line
animation, both axes treated with `specAxisUpdate` and mins untouched. -/
def specLineStep (Y : List (List ℚ)) (c s i : Nat) (st : LineState) :
    LineState :=
  let y2 := specAxisUpdate c (listMax (Y.getD i []))
    (matMax (Y.take (min (i + s / c) Y.length))) st.y_max st.num_y_ticks
  let x2 := specAxisUpdate c ((xIndices Y.length).getD i 0)
    (listMax ((xIndices Y.length).take (min (i + s / c) Y.length)))
    st.x_max st.num_x_ticks
  { st with y_max := y2.1, num_y_ticks := y2.2, x_max := x2.1, num_x_ticks := x2.2 }

/-- Modelled from the claim wording (C1): the per-step update of the bar
animation. -/
def specBarStep (Y : List (List ℚ)) (c s i : Nat) (st : BarState) : BarState :=
  let y2 := specAxisUpdate c (listMax (Y.getD i []))
    (matMax (Y.take (min (i + s / c) Y.length))) st.y_max st.num_y_ticks
  { st with y_max := y2.1, num_y_ticks := y2.2 }

theorem tickGrow_le {c t : Nat} (h : t ≤ c) : tickGrow c t ≤ c := by
  unfold tickGrow
  split <;> omega

theorem tickGrow_eq_min {c t : Nat} (h : t ≤ c) : tickGrow c t = min (t + 1) c := by
  unfold tickGrow
  split <;> omega

/-- If `3 * next_indicies` is a valid index into the sampled data (so the
initial `State` can be built at all) and at least one loop iteration exists,
the configured ceiling is at least `3`: for `num_ticks ∈ {1, 2}` the
look-ahead index `3 * (s / c)` already reaches past the sampled length. -/
theorem ceiling_ge_three {s c L : Nat} (hc1 : 1 ≤ c) (h3 : 3 * (s / c) < L)
    (hs : L ≤ s) (hL : 2 ≤ L) : 3 ≤ c := by
  by_contra hc
  have : c = 1 ∨ c = 2 := by omega
  rcases this with rfl | rfl <;> omega

theorem yScale_ticks_cases (Y : List (List ℚ)) (c s i : Nat) (y : ℚ) (t : Nat) :
    (yScale Y c s i y t).2 = t ∨ (yScale Y c s i y t).2 = tickGrow c t := by
  unfold yScale
  split
  · exact Or.inr rfl
  · exact Or.inl rfl

theorem xScale_ticks_cases (L c s i : Nat) (x : ℚ) (t : Nat) :
    (xScale L c s i x t).2 = t ∨ (xScale L c s i x t).2 = tickGrow c t := by
  unfold xScale
  split
  · exact Or.inr rfl
  · exact Or.inl rfl

theorem yScale_ticks_le {c t : Nat} (Y : List (List ℚ)) (s i : Nat) (y : ℚ)
    (h : t ≤ c) : (yScale Y c s i y t).2 ≤ c := by
  rcases yScale_ticks_cases Y c s i y t with h1 | h1 <;> rw [h1]
  · exact h
  · exact tickGrow_le h

theorem xScale_ticks_le {c t : Nat} (L s i : Nat) (x : ℚ) (h : t ≤ c) :
    (xScale L c s i x t).2 ≤ c := by
  rcases xScale_ticks_cases L c s i x t with h1 | h1 <;> rw [h1]
  · exact h
  · exact tickGrow_le h

/-- Tick counts stay at or below the ceiling throughout a line run, once
the ceiling is at least the initial `3`. -/
theorem lineRun_ticks_le (Y : List (List ℚ)) (c s : Nat) (hc : 3 ≤ c) :
    ∀ i, (lineRun Y c s i).num_y_ticks ≤ c ∧ (lineRun Y c s i).num_x_ticks ≤ c := by
  intro i
  induction i with
  | zero => exact ⟨hc, hc⟩
  | succ n ih =>
    constructor
    · exact yScale_ticks_le Y s (n + 1) (lineRun Y c s n).y_max ih.1
    · exact xScale_ticks_le Y.length s (n + 1) (lineRun Y c s n).x_max ih.2

/-- Tick counts stay at or below the ceiling throughout a bar run. -/
theorem barRun_ticks_le (Y : List (List ℚ)) (c s : Nat) (r : Bool) (hc : 3 ≤ c) :
    ∀ i, (barRun Y c s r i).num_y_ticks ≤ c := by
  intro i
  induction i with
  | zero => exact hc
  | succ n ih => exact yScale_ticks_le Y s (n + 1) (barRun Y c s r n).y_max ih

theorem yScale_eq_spec {c t : Nat} (Y : List (List ℚ)) (s i : Nat) (y : ℚ)
    (h : t ≤ c) :
    yScale Y c s i y t
      = specAxisUpdate c (listMax (Y.getD i []))
          (matMax (Y.take (min (i + s / c) Y.length))) y t := by
  unfold yScale specAxisUpdate
  by_cases hcond : listMax (Y.getD i []) ≥ y
  · rw [if_pos hcond, if_pos hcond, tickGrow_eq_min h]
  · rw [if_neg hcond, if_neg hcond]

theorem xScale_eq_spec {c t : Nat} (L s i : Nat) (x : ℚ) (h : t ≤ c) :
    xScale L c s i x t
      = specAxisUpdate c ((xIndices L).getD i 0)
          (listMax ((xIndices L).take (min (i + s / c) L))) x t := by
  unfold xScale specAxisUpdate
  by_cases hcond : (xIndices L).getD i 0 ≥ x
  · rw [if_pos hcond, if_pos hcond, tickGrow_eq_min h]
  · rw [if_neg hcond, if_neg hcond]

/-- The bar run tracks the y components of the line run exactly (both
variants contain the identical y-scaling code). -/
theorem barRun_y_eq (Y : List (List ℚ)) (c s : Nat) (r : Bool) :
    ∀ i, (barRun Y c s r i).y_max = (lineRun Y c s i).y_max
      ∧ (barRun Y c s r i).num_y_ticks = (lineRun Y c s i).num_y_ticks := by
  intro i
  induction i with
  | zero => exact ⟨rfl, rfl⟩
  | succ n ih =>
    constructor
    · show (yScale Y c s (n + 1) (barRun Y c s r n).y_max
          (barRun Y c s r n).num_y_ticks).1 = _
      rw [ih.1, ih.2]
      rfl
    · show (yScale Y c s (n + 1) (barRun Y c s r n).y_max
          (barRun Y c s r n).num_y_ticks).2 = _
      rw [ih.1, ih.2]
      rfl

/-- **C1**: for every step `i ≥ 1` of an actual growing-line or growing-bar
run (the initial state indexes the sampled arrays successfully, the
sampled length is at most `num_samples`, and step `i` exists), the step
performed by the code coincides with the claimed one: per axis, if the
newly revealed value reaches the current max, the state is replaced by one
with `num_ticks = min(num_ticks + 1, ceiling)` and `max` recomputed over
the prefix window `[0, min(i + lookahead, length))`; otherwise that axis's
state, mins included, is unchanged. -/
theorem c1_step_refinement (Y : List (List ℚ)) (c s : Nat) (r : Bool)
    (i : Nat) (hc1 : 1 ≤ c) (h3 : 3 * (s / c) < Y.length)
    (hs : Y.length ≤ s) (hi : i + 1 < Y.length) :
    lineRun Y c s (i + 1) = specLineStep Y c s (i + 1) (lineRun Y c s i)
    ∧ barRun Y c s r (i + 1) = specBarStep Y c s (i + 1) (barRun Y c s r i) := by
  have hc3 : 3 ≤ c := ceiling_ge_three hc1 h3 hs (by omega)
  constructor
  · show lineStep Y c s (i + 1) (lineRun Y c s i) = _
    unfold lineStep specLineStep
    rw [yScale_eq_spec Y s (i + 1) _ (lineRun_ticks_le Y c s hc3 i).1,
      xScale_eq_spec Y.length s (i + 1) _ (lineRun_ticks_le Y c s hc3 i).2]
  · show barStep Y c s (i + 1) (barRun Y c s r i) = _
    unfold barStep specBarStep
    rw [yScale_eq_spec Y s (i + 1) _ (by
      rw [(barRun_y_eq Y c s r i).2]
      exact (lineRun_ticks_le Y c s hc3 i).1)]

/-- A concrete sampled value table used by the run witnesses: six samples
of a single ticker. -/
def sampleY : List (List ℚ) := [[1], [2], [3], [4], [5], [6]]

/-- Witness for `c1_step_refinement` at `sampleY`, ceiling 6, 6 samples,
step 1. -/
theorem c1_step_refinement_witness :
    (1 ≤ 6 ∧ 3 * (6 / 6) < sampleY.length ∧ sampleY.length ≤ 6
      ∧ 1 + 1 < sampleY.length)
    ∧ lineRun sampleY 6 6 2 = specLineStep sampleY 6 6 2 (lineRun sampleY 6 6 1)
    ∧ barRun sampleY 6 6 true 2
        = specBarStep sampleY 6 6 2 (barRun sampleY 6 6 true 1) :=
  ⟨⟨by decide, by decide, by decide, by decide⟩,
    (c1_step_refinement sampleY 6 6 true 1 (by decide) (by decide) (by decide)
      (by decide)).1,
    (c1_step_refinement sampleY 6 6 true 1 (by decide) (by decide) (by decide)
      (by decide)).2⟩

/-- A value table whose look-ahead prefix `[10, 20, 15, 5]` peaks before
the look-ahead index `3 * (6 / 6) = 3`. -/
def lookaheadY : List (List ℚ) := [[10], [20], [15], [5], [7]]

/-- **C2** (as stated, counterexample): with `num_ticks = num_samples = 6`
the look-ahead index is `3`, and on `lookaheadY` initialization sets
`y_max = 5` — the value of the single row *at* the look-ahead index — while
the maximum over the look-ahead window is `20` (both for the window through
the look-ahead row, `take 4`, and for the window before it, `take 3`).  In
particular window values `[10, 20, 15, …]` do *not* initialize `max` to
`20`. -/
theorem c2_init_counterexample :
    (lineInit lookaheadY 6 6).y_max = 5
    ∧ (barInit lookaheadY 6 6 false).y_max = 5
    ∧ matMax (lookaheadY.take 4) = 20
    ∧ matMax (lookaheadY.take 3) = 20 := by
  refine ⟨by decide, by decide, by decide, by decide⟩

/-- **C2** (amended): the initial axis state of the growing animations has
`min = 0` and `num_ticks = 3` for each axis, `y max` equal to the maximum
across tickers of the *single row* at look-ahead index
`3 * int(num_samples / num_ticks)` (not of the whole look-ahead window),
and `x max` equal to the X index at that position; the bar state carries
the `y_round` flag and the same `y max`. -/
theorem c2_init_amended (Y : List (List ℚ)) (c s : Nat) (r : Bool)
    (h3 : 3 * (s / c) < Y.length) (hrow : Y.getD (3 * (s / c)) [] ≠ []) :
    (lineInit Y c s).x_min = 0 ∧ (lineInit Y c s).y_min = 0
    ∧ (lineInit Y c s).num_x_ticks = 3 ∧ (lineInit Y c s).num_y_ticks = 3
    ∧ (lineInit Y c s).x_max = ((3 * (s / c) : Nat) : ℚ)
    ∧ (lineInit Y c s).y_max ∈ Y.getD (3 * (s / c)) []
    ∧ (∀ v ∈ Y.getD (3 * (s / c)) [], v ≤ (lineInit Y c s).y_max)
    ∧ (barInit Y c s r).y_min = 0 ∧ (barInit Y c s r).num_y_ticks = 3
    ∧ (barInit Y c s r).y_max = (lineInit Y c s).y_max
    ∧ (barInit Y c s r).y_round = r := by
  refine ⟨rfl, rfl, rfl, rfl, ?_, ?_, ?_, rfl, rfl, rfl, rfl⟩
  · exact xIndices_getD h3
  · exact listMax_mem hrow
  · intro v hv
    exact le_listMax_of_mem hv

/-- Witness for `c2_init_amended` at `lookaheadY`, ceiling 6, 6 samples. -/
theorem c2_init_witness :
    (3 * (6 / 6) < lookaheadY.length
      ∧ lookaheadY.getD (3 * (6 / 6)) [] ≠ [])
    ∧ (lineInit lookaheadY 6 6).x_max = ((3 * (6 / 6) : Nat) : ℚ)
    ∧ (lineInit lookaheadY 6 6).y_max ∈ lookaheadY.getD (3 * (6 / 6)) []
    ∧ (barInit lookaheadY 6 6 true).y_max = (lineInit lookaheadY 6 6).y_max :=
  ⟨⟨by decide, by decide⟩,
    (c2_init_amended lookaheadY 6 6 true (by decide) (by decide)).2.2.2.2.1,
    (c2_init_amended lookaheadY 6 6 true (by decide) (by decide)).2.2.2.2.2.1,
    (c2_init_amended lookaheadY 6 6 true (by decide) (by decide)).2.2.2.2.2.2.2.2.2.1⟩

theorem getD_mem_of_lt {α : Type} (l : List α) (d : α) {j : Nat}
    (h : j < l.length) : l.getD j d ∈ l := by
  rw [List.getD_eq_getElem?_getD, List.getElem?_eq_getElem h]
  exact List.getElem_mem h

theorem getD_mem_take {α : Type} (l : List α) (d : α) {j w : Nat}
    (hjw : j < w) (hjl : j < l.length) : l.getD j d ∈ l.take w := by
  have hlen : j < (l.take w).length := by
    simp only [List.length_take]
    omega
  have heq : (l.take w).getD j d = l.getD j d := by
    rw [List.getD_eq_getElem?_getD, List.getD_eq_getElem?_getD,
      List.getElem?_eq_getElem hlen, List.getElem?_eq_getElem hjl]
    rw [List.getElem_take]
  rw [← heq]
  exact getD_mem_of_lt _ _ hlen

theorem take_subset_take {α : Type} (l : List α) {k k2 : Nat} (h : k ≤ k2) :
    ∀ a ∈ l.take k, a ∈ l.take k2 := by
  intro a ha
  have : l.take k = (l.take k2).take k := by
    rw [List.take_take, min_eq_left h]
  rw [this] at ha
  exact List.take_subset _ _ ha

/-- Every value of a row already inside the prefix window is bounded by the
window maximum. -/
theorem le_matMax_take {Y : List (List ℚ)} {j w : Nat} {v : ℚ}
    (hjw : j < w) (hjl : j < Y.length) (hv : v ∈ Y.getD j []) :
    v ≤ matMax (Y.take w) := by
  unfold matMax
  apply le_listMax_of_mem
  rw [List.mem_flatten]
  exact ⟨Y.getD j [], getD_mem_take Y [] hjw hjl, hv⟩

/-- After loop iterations `1, …, i` every ticker value of rows `1, …, i` is
at or below the current `y_max` (row `0` is *not* covered: initialization
looks only at the row at the look-ahead index). -/
theorem lineRun_y_no_clip (Y : List (List ℚ)) (c s : Nat)
    (hni : 1 ≤ s / c) :
    ∀ i, i < Y.length → ∀ j, 1 ≤ j → j ≤ i → ∀ v ∈ Y.getD j [],
      v ≤ (lineRun Y c s i).y_max := by
  intro i
  induction i with
  | zero =>
    intro _ j h1 h0
    omega
  | succ n ih =>
    intro hn1 j hj1 hjn v hv
    have hmax : (lineRun Y c s (n + 1)).y_max
        = (yScale Y c s (n + 1) (lineRun Y c s n).y_max
            (lineRun Y c s n).num_y_ticks).1 := rfl
    rw [hmax]
    unfold yScale
    by_cases hcond : listMax (Y.getD (n + 1) []) ≥ (lineRun Y c s n).y_max
    · rw [if_pos hcond]
      show v ≤ matMax (Y.take (min (n + 1 + s / c) Y.length))
      exact le_matMax_take (by omega) (by omega) hv
    · rw [if_neg hcond]
      push_neg at hcond
      rcases Nat.lt_or_ge j (n + 1) with hj | hj
      · exact ih (by omega) j hj1 (by omega) v hv
      · have hje : j = n + 1 := by omega
        subst hje
        exact le_of_lt (lt_of_le_of_lt (le_listMax_of_mem hv) hcond)

/-- After loop iterations `1, …, i` the current `x_max` is at least `i`,
hence at least every revealed X index. -/
theorem lineRun_x_ge (Y : List (List ℚ)) (c s : Nat) (hni : 1 ≤ s / c)
    (h3 : 3 * (s / c) < Y.length) :
    ∀ i, i < Y.length → ((i : Nat) : ℚ) ≤ (lineRun Y c s i).x_max := by
  intro i
  induction i with
  | zero =>
    intro _
    show (0 : ℚ) ≤ (xIndices Y.length).getD (3 * (s / c)) 0
    rw [xIndices_getD h3]
    positivity
  | succ n ih =>
    intro hn1
    have hmax : (lineRun Y c s (n + 1)).x_max
        = (xScale Y.length c s (n + 1) (lineRun Y c s n).x_max
            (lineRun Y c s n).num_x_ticks).1 := rfl
    rw [hmax]
    unfold xScale
    by_cases hcond : (xIndices Y.length).getD (n + 1) 0
        ≥ (lineRun Y c s n).x_max
    · rw [if_pos hcond]
      show _ ≤ listMax ((xIndices Y.length).take (min (n + 1 + s / c) Y.length))
      rw [xIndices_take]
      have hmm : min (min (n + 1 + s / c) Y.length) Y.length
          = min (n + 1 + s / c) Y.length := by omega
      rw [hmm, listMax_xIndices (by omega)]
      have hle : n + 1 ≤ min (n + 1 + s / c) Y.length - 1 := by omega
      exact_mod_cast hle
    · rw [if_neg hcond]
      push_neg at hcond
      rw [xIndices_getD hn1] at hcond
      exact le_of_lt hcond

/-- **C3** (as stated, counterexample): with `num_samples = 5 <
num_ticks = 6` the lookahead `int(5/6)` is `0`, so the window recomputed on
a rescale excludes the row being revealed: on `Y = [[1], [10]]`, after
Step(1) the y-axis max is still `1` while the revealed value `Y[1][0] = 10`
exceeds it — the revealed point is clipped. -/
theorem c3_no_clip_counterexample :
    (lineRun [[(1 : ℚ)], [10]] 6 5 1).y_max = 1
    ∧ (10 : ℚ) ∈ ([[(1 : ℚ)], [10]] : List (List ℚ)).getD 1 []
    ∧ ¬ ((10 : ℚ) ≤ (lineRun [[(1 : ℚ)], [10]] 6 5 1).y_max) := by
  refine ⟨by decide, by decide, by decide⟩

/-- **C3** (amended): provided the lookahead
`int(num_samples / num_ticks)` is at least 1 (i.e. `num_samples ≥
num_ticks`) and the initial state is well defined, no point revealed *by a
step* is ever clipped: after Step(i), `y_max` is at least every ticker
value of rows `1, …, i` (for both the line and the bar animation) and
`x_max` is at least every revealed X index `0, …, i`.  The guarantee does
not extend to the y value of row 0, which initialization may leave above
the axis (see the C2 counterexample). -/
theorem c3_no_clip_amended (Y : List (List ℚ)) (c s : Nat) (r : Bool)
    (i : Nat) (hni : 1 ≤ s / c) (h3 : 3 * (s / c) < Y.length)
    (hi : i < Y.length) :
    (∀ j, 1 ≤ j → j ≤ i → ∀ v ∈ Y.getD j [],
      v ≤ (lineRun Y c s i).y_max ∧ v ≤ (barRun Y c s r i).y_max)
    ∧ ∀ j, j ≤ i → ((j : Nat) : ℚ) ≤ (lineRun Y c s i).x_max := by
  constructor
  · intro j h1 h2 v hv
    refine ⟨lineRun_y_no_clip Y c s hni i hi j h1 h2 v hv, ?_⟩
    rw [(barRun_y_eq Y c s r i).1]
    exact lineRun_y_no_clip Y c s hni i hi j h1 h2 v hv
  · intro j hj
    calc ((j : Nat) : ℚ) ≤ ((i : Nat) : ℚ) := by exact_mod_cast hj
      _ ≤ (lineRun Y c s i).x_max := lineRun_x_ge Y c s hni h3 i hi

/-- Witness for `c3_no_clip_amended` at `sampleY`, ceiling 6, 6 samples,
after step 2, revealed row 2. -/
theorem c3_no_clip_witness :
    (1 ≤ 6 / 6 ∧ 3 * (6 / 6) < sampleY.length ∧ 2 < sampleY.length)
    ∧ ((3 : ℚ) ≤ (lineRun sampleY 6 6 2).y_max
        ∧ (3 : ℚ) ≤ (barRun sampleY 6 6 true 2).y_max)
    ∧ ((2 : Nat) : ℚ) ≤ (lineRun sampleY 6 6 2).x_max :=
  ⟨⟨by decide, by decide, by decide⟩,
    (c3_no_clip_amended sampleY 6 6 true 2 (by decide) (by decide)
      (by decide)).1 2 (by decide) (by decide) 3 (by decide),
    (c3_no_clip_amended sampleY 6 6 true 2 (by decide) (by decide)
      (by decide)).2 2 (by decide)⟩

theorem matMax_take_mono (Y : List (List ℚ)) {k k2 : Nat}
    (h0 : Y.getD 0 [] ≠ []) (hL : 0 < Y.length) (hk : 1 ≤ k) (hkk : k ≤ k2) :
    matMax (Y.take k) ≤ matMax (Y.take k2) := by
  unfold matMax
  apply listMax_le_of_subset
  · intro hnil
    rw [List.flatten_eq_nil_iff] at hnil
    exact h0 (hnil _ (getD_mem_take Y [] (by omega) hL))
  · intro a ha
    rw [List.mem_flatten] at ha ⊢
    obtain ⟨row, hrow, hra⟩ := ha
    exact ⟨row, take_subset_take Y hkk row hrow, hra⟩

/-- When the lookahead is `0`, `y_max` never exceeds the maximum over the
revealed prefix. -/
theorem lineRun_ymax_window_zero (Y : List (List ℚ)) (c s : Nat)
    (hni : s / c = 0) (h0 : Y.getD 0 [] ≠ []) :
    ∀ i, i < Y.length → (lineRun Y c s i).y_max ≤ matMax (Y.take (i + 1)) := by
  intro i
  induction i with
  | zero =>
    intro hL
    show listMax (Y.getD (3 * (s / c)) []) ≤ _
    rw [hni, Nat.mul_zero]
    exact le_matMax_take (by omega) hL (listMax_mem h0)
  | succ n ih =>
    intro hn1
    have hmax : (lineRun Y c s (n + 1)).y_max
        = (yScale Y c s (n + 1) (lineRun Y c s n).y_max
            (lineRun Y c s n).num_y_ticks).1 := rfl
    rw [hmax]
    unfold yScale
    have hL0 : 0 < Y.length := by omega
    by_cases hcond : listMax (Y.getD (n + 1) []) ≥ (lineRun Y c s n).y_max
    · rw [if_pos hcond]
      show matMax (Y.take (min (n + 1 + s / c) Y.length)) ≤ _
      have hw : min (n + 1 + s / c) Y.length = n + 1 := by omega
      rw [hw]
      exact matMax_take_mono Y h0 hL0 (by omega) (by omega)
    · rw [if_neg hcond]
      calc (lineRun Y c s n).y_max ≤ matMax (Y.take (n + 1)) := ih (by omega)
        _ ≤ matMax (Y.take (n + 1 + 1)) :=
            matMax_take_mono Y h0 hL0 (by omega) (by omega)

/-- `y_max` never decreases from one step state to the next. -/
theorem lineRun_ymax_mono (Y : List (List ℚ)) (c s : Nat)
    (HY : ∀ row ∈ Y, row ≠ []) (h3 : 3 * (s / c) < Y.length) :
    ∀ i, i + 1 < Y.length →
      (lineRun Y c s i).y_max ≤ (lineRun Y c s (i + 1)).y_max := by
  intro i hi
  have h0 : Y.getD 0 [] ≠ [] := HY _ (getD_mem_of_lt Y [] (by omega))
  have hmax : (lineRun Y c s (i + 1)).y_max
      = (yScale Y c s (i + 1) (lineRun Y c s i).y_max
          (lineRun Y c s i).num_y_ticks).1 := rfl
  rw [hmax]
  unfold yScale
  by_cases hcond : listMax (Y.getD (i + 1) []) ≥ (lineRun Y c s i).y_max
  · rw [if_pos hcond]
    show (lineRun Y c s i).y_max ≤ matMax (Y.take (min (i + 1 + s / c) Y.length))
    rcases Nat.eq_zero_or_pos (s / c) with hni | hni
    · have hw : min (i + 1 + s / c) Y.length = i + 1 := by omega
      rw [hw]
      exact lineRun_ymax_window_zero Y c s hni h0 i (by omega)
    · have hrow : Y.getD (i + 1) [] ≠ [] := HY _ (getD_mem_of_lt Y [] (by omega))
      calc (lineRun Y c s i).y_max ≤ listMax (Y.getD (i + 1) []) := hcond
        _ ≤ matMax (Y.take (min (i + 1 + s / c) Y.length)) :=
            le_matMax_take (by omega) (by omega) (listMax_mem hrow)
  · rw [if_neg hcond]

/-- When the lookahead is `0`, `x_max` never exceeds the latest revealed
X index. -/
theorem lineRun_xmax_le_idx_zero (Y : List (List ℚ)) (c s : Nat)
    (hni : s / c = 0) :
    ∀ i, i < Y.length → (lineRun Y c s i).x_max ≤ ((i : Nat) : ℚ) := by
  intro i
  induction i with
  | zero =>
    intro hL
    show (xIndices Y.length).getD (3 * (s / c)) 0 ≤ _
    rw [hni, Nat.mul_zero, xIndices_getD hL]
  | succ n ih =>
    intro hn1
    have hmax : (lineRun Y c s (n + 1)).x_max
        = (xScale Y.length c s (n + 1) (lineRun Y c s n).x_max
            (lineRun Y c s n).num_x_ticks).1 := rfl
    rw [hmax]
    unfold xScale
    by_cases hcond : (xIndices Y.length).getD (n + 1) 0
        ≥ (lineRun Y c s n).x_max
    · rw [if_pos hcond]
      show listMax ((xIndices Y.length).take (min (n + 1 + s / c) Y.length)) ≤ _
      rw [xIndices_take]
      have hw : min (min (n + 1 + s / c) Y.length) Y.length = n + 1 := by omega
      rw [hw, listMax_xIndices (by omega)]
      have hle : (n + 1 - 1 : Nat) ≤ (n + 1 : Nat) := by omega
      exact_mod_cast hle
    · rw [if_neg hcond]
      calc (lineRun Y c s n).x_max ≤ ((n : Nat) : ℚ) := ih (by omega)
        _ ≤ ((n + 1 : Nat) : ℚ) := by exact_mod_cast Nat.le_succ n

/-- `x_max` never decreases from one step state to the next. -/
theorem lineRun_xmax_mono (Y : List (List ℚ)) (c s : Nat)
    (h3 : 3 * (s / c) < Y.length) :
    ∀ i, i + 1 < Y.length →
      (lineRun Y c s i).x_max ≤ (lineRun Y c s (i + 1)).x_max := by
  intro i hi
  have hmax : (lineRun Y c s (i + 1)).x_max
      = (xScale Y.length c s (i + 1) (lineRun Y c s i).x_max
          (lineRun Y c s i).num_x_ticks).1 := rfl
  rw [hmax]
  unfold xScale
  by_cases hcond : (xIndices Y.length).getD (i + 1) 0 ≥ (lineRun Y c s i).x_max
  · rw [if_pos hcond]
    show (lineRun Y c s i).x_max
        ≤ listMax ((xIndices Y.length).take (min (i + 1 + s / c) Y.length))
    rw [xIndices_take]
    have hmm : min (min (i + 1 + s / c) Y.length) Y.length
        = min (i + 1 + s / c) Y.length := by omega
    rw [hmm, listMax_xIndices (by omega)]
    rcases Nat.eq_zero_or_pos (s / c) with hni | hni
    · have hw : (min (i + 1 + s / c) Y.length - 1 : Nat) = i := by omega
      rw [hw]
      exact lineRun_xmax_le_idx_zero Y c s hni i (by omega)
    · have h1 : (lineRun Y c s i).x_max ≤ ((i + 1 : Nat) : ℚ) := by
        rw [← xIndices_getD (show i + 1 < Y.length by omega)]
        exact hcond
      have h2 : (i + 1 : Nat) ≤ min (i + 1 + s / c) Y.length - 1 := by omega
      calc (lineRun Y c s i).x_max ≤ ((i + 1 : Nat) : ℚ) := h1
        _ ≤ _ := by exact_mod_cast h2
  · rw [if_neg hcond]

theorem yScale_ticks_bounds (Y : List (List ℚ)) (c s i : Nat) (y : ℚ)
    (t : Nat) : t ≤ (yScale Y c s i y t).2 ∧ (yScale Y c s i y t).2 ≤ t + 1 := by
  rcases yScale_ticks_cases Y c s i y t with h | h <;> rw [h]
  · omega
  · unfold tickGrow
    split <;> omega

theorem xScale_ticks_bounds (L c s i : Nat) (x : ℚ) (t : Nat) :
    t ≤ (xScale L c s i x t).2 ∧ (xScale L c s i x t).2 ≤ t + 1 := by
  rcases xScale_ticks_cases L c s i x t with h | h <;> rw [h]
  · omega
  · unfold tickGrow
    split <;> omega

/-- **C4**: across an actual growing-animation run (nonempty rows, valid
initial index, sampled length at most `num_samples`, step `i + 1` exists),
each axis's `num_ticks` is monotonically non-decreasing, grows by at most
one per step, and never exceeds the configured ceiling; and each axis's
`max` is monotonically non-decreasing from one step state to the next —
for the line animation (both axes) and the bar animation (y axis). -/
theorem c4_monotone (Y : List (List ℚ)) (c s : Nat) (r : Bool) (i : Nat)
    (HY : ∀ row ∈ Y, row ≠ []) (hc1 : 1 ≤ c) (h3 : 3 * (s / c) < Y.length)
    (hs : Y.length ≤ s) (hi : i + 1 < Y.length) :
    ((lineRun Y c s i).num_y_ticks ≤ (lineRun Y c s (i + 1)).num_y_ticks
      ∧ (lineRun Y c s (i + 1)).num_y_ticks ≤ (lineRun Y c s i).num_y_ticks + 1
      ∧ (lineRun Y c s (i + 1)).num_y_ticks ≤ c)
    ∧ ((lineRun Y c s i).num_x_ticks ≤ (lineRun Y c s (i + 1)).num_x_ticks
      ∧ (lineRun Y c s (i + 1)).num_x_ticks ≤ (lineRun Y c s i).num_x_ticks + 1
      ∧ (lineRun Y c s (i + 1)).num_x_ticks ≤ c)
    ∧ (lineRun Y c s i).y_max ≤ (lineRun Y c s (i + 1)).y_max
    ∧ (lineRun Y c s i).x_max ≤ (lineRun Y c s (i + 1)).x_max
    ∧ ((barRun Y c s r i).num_y_ticks ≤ (barRun Y c s r (i + 1)).num_y_ticks
      ∧ (barRun Y c s r (i + 1)).num_y_ticks ≤ (barRun Y c s r i).num_y_ticks + 1
      ∧ (barRun Y c s r (i + 1)).num_y_ticks ≤ c)
    ∧ (barRun Y c s r i).y_max ≤ (barRun Y c s r (i + 1)).y_max := by
  have hc3 : 3 ≤ c := ceiling_ge_three hc1 h3 hs (by omega)
  have hyb := yScale_ticks_bounds Y c s (i + 1) (lineRun Y c s i).y_max
    (lineRun Y c s i).num_y_ticks
  have hxb := xScale_ticks_bounds Y.length c s (i + 1) (lineRun Y c s i).x_max
    (lineRun Y c s i).num_x_ticks
  have hybar := yScale_ticks_bounds Y c s (i + 1) (barRun Y c s r i).y_max
    (barRun Y c s r i).num_y_ticks
  refine ⟨⟨hyb.1, hyb.2, (lineRun_ticks_le Y c s hc3 (i + 1)).1⟩,
    ⟨hxb.1, hxb.2, (lineRun_ticks_le Y c s hc3 (i + 1)).2⟩,
    lineRun_ymax_mono Y c s HY h3 i hi,
    lineRun_xmax_mono Y c s h3 i hi,
    ⟨hybar.1, hybar.2, barRun_ticks_le Y c s r hc3 (i + 1)⟩, ?_⟩
  rw [(barRun_y_eq Y c s r i).1, (barRun_y_eq Y c s r (i + 1)).1]
  exact lineRun_ymax_mono Y c s HY h3 i hi

/-- Witness for `c4_monotone` at `sampleY`, ceiling 6, 6 samples, step 2. -/
theorem c4_monotone_witness :
    ((∀ row ∈ sampleY, row ≠ []) ∧ 1 ≤ 6 ∧ 3 * (6 / 6) < sampleY.length
      ∧ sampleY.length ≤ 6 ∧ 1 + 1 < sampleY.length)
    ∧ ((lineRun sampleY 6 6 1).num_y_ticks ≤ (lineRun sampleY 6 6 2).num_y_ticks
      ∧ (lineRun sampleY 6 6 2).num_y_ticks
          ≤ (lineRun sampleY 6 6 1).num_y_ticks + 1
      ∧ (lineRun sampleY 6 6 2).num_y_ticks ≤ 6)
    ∧ ((lineRun sampleY 6 6 1).num_x_ticks ≤ (lineRun sampleY 6 6 2).num_x_ticks
      ∧ (lineRun sampleY 6 6 2).num_x_ticks
          ≤ (lineRun sampleY 6 6 1).num_x_ticks + 1
      ∧ (lineRun sampleY 6 6 2).num_x_ticks ≤ 6)
    ∧ (lineRun sampleY 6 6 1).y_max ≤ (lineRun sampleY 6 6 2).y_max
    ∧ (lineRun sampleY 6 6 1).x_max ≤ (lineRun sampleY 6 6 2).x_max
    ∧ ((barRun sampleY 6 6 true 1).num_y_ticks
          ≤ (barRun sampleY 6 6 true 2).num_y_ticks
      ∧ (barRun sampleY 6 6 true 2).num_y_ticks
          ≤ (barRun sampleY 6 6 true 1).num_y_ticks + 1
      ∧ (barRun sampleY 6 6 true 2).num_y_ticks ≤ 6)
    ∧ (barRun sampleY 6 6 true 1).y_max ≤ (barRun sampleY 6 6 true 2).y_max :=
  ⟨⟨by decide, by decide, by decide, by decide, by decide⟩,
    c4_monotone sampleY 6 6 true 1 (by decide) (by decide) (by decide)
      (by decide) (by decide)⟩

/-! ## `GrowingBarplot.State.barchart`: the `update_bar_values` call -/

/-- The parameter list of `update_bar_values` as defined in
`src/manim_stock/util/barchart.py` and re-exported by
`manim_stock.util.__init__` (the module `growing_barplot` imports it
from). -/
def update_bar_values_params : List String :=
  ["ax", "y_min", "y_max", "num_y_ticks"]

/-- The positional arguments `State.barchart` passes in
`src/manim_stock/visualization/growing_barplot.py`:
`update_bar_values(ax, self.y_min, self.y_max, self.num_y_ticks,
self.y_round)`. -/
def barchart_call_args : List String :=
  ["ax", "self.y_min", "self.y_max", "self.num_y_ticks", "self.y_round"]

/-- Python positional binding against a signature with no defaults and no
varargs: the call raises `TypeError` unless the argument count matches the
parameter count. -/
def bindPositional (params args : List String) : Except PyError Unit :=
  if args.length = params.length then Except.ok ()
  else Except.error PyError.typeError

/-- `State.barchart(bar_values, bar_names, bar_colors)` of
`GrowingBarplot`: `create_barchart` and `remove_bar_names` are modelled as
succeeding (pure scene-graph construction), after which the method calls
`update_bar_values` with the five positional arguments above. -/
def stateBarchartRender (st : BarState) (bar_values : List ℚ)
    (bar_names bar_colors : List String) : Except PyError Unit :=
  bindPositional update_bar_values_params barchart_call_args

/-- **C9**: materialization always fails: `update_bar_values` declares four
parameters while `State.barchart` passes five positional arguments, so for
every `GrowingBarplot` state and every `bar_values`/`bar_names`/`bar_colors`
input the call raises `TypeError`; in particular the first frame of
`GrowingBarplot.construct` (which renders `state.barchart(self.Y[0],
self.names, self.colors)` from the initial state) can never complete. -/
theorem c9_barchart_type_error :
    update_bar_values_params.length = 4
    ∧ barchart_call_args.length = 5
    ∧ (∀ (st : BarState) (bar_values : List ℚ)
        (bar_names bar_colors : List String),
        stateBarchartRender st bar_values bar_names bar_colors
          = Except.error PyError.typeError)
    ∧ ∀ (Y : List (List ℚ)) (c s : Nat) (r : Bool)
        (names colors : List String),
        stateBarchartRender (barInit Y c s r) (Y.getD 0 []) names colors
          = Except.error PyError.typeError :=
  ⟨rfl, rfl, fun _ _ _ _ => rfl, fun _ _ _ _ _ _ => rfl⟩

/-! ## `GrowingLineplot.construct`: building the initial state -/

/-- Building the initial `State` of `GrowingLineplot.construct` indexes
`self.X_indices[3 * self.next_indicies]` and
`self.Y[3 * self.next_indicies]` with
`next_indicies = int(num_samples / num_ticks)`; a numpy integer index must
be smaller than the array length, otherwise `IndexError` is raised. -/
def lineConstructInitState (Y : List (List ℚ)) (c s : Nat) :
    Except PyError LineState :=
  if 3 * (s / c) < Y.length then Except.ok (lineInit Y c s)
  else Except.error PyError.indexError

/-- The validation-relevant arguments of a `GrowingLineplot` constructed
with all-default parameters (`num_ticks = 6`, `num_samples = 100`,
run-times 5/50/5, camera scale 1.2, no colors) on an existing single-ticker
CSV. -/
def defaultLineArgs : SVArgs :=
  { path_exists := true
    path_is_csv := true
    background_run_time := 5
    animation_run_time := 50
    wait_run_time := 5
    camera_scale := 6 / 5
    num_ticks := 6
    num_samples := 100
    colors := none
    num_tickers := 1 }

/-- **C10**: whenever the sampled length `min(num_samples, rows)` is at
most `3 * int(num_samples / num_ticks)`, `GrowingLineplot.construct` fails
with an out-of-range index error while building the initial state, even
though constructor validation accepts all default parameters; with the
defaults `num_samples = 100`, `num_ticks = 6` this happens for every CSV
with fewer than 49 rows. -/
theorem c10_construct_index_error (Y : List (List ℚ)) (n s c : Nat)
    (hY : Y.length = (sampleIndices n s).length)
    (hle : (sampleIndices n s).length ≤ 3 * (s / c)) :
    lineConstructInitState Y c s = Except.error PyError.indexError
    ∧ svOk defaultLineArgs
    ∧ ∀ (Z : List (List ℚ)) (n2 : Nat), n2 < 49
        → Z.length = (sampleIndices n2 100).length
        → lineConstructInitState Z 6 100 = Except.error PyError.indexError := by
  refine ⟨?_, ?_, ?_⟩
  · unfold lineConstructInitState
    rw [if_neg (by omega)]
  · refine ⟨rfl, rfl, by norm_num [defaultLineArgs], by norm_num [defaultLineArgs],
      by norm_num [defaultLineArgs], by norm_num [defaultLineArgs],
      by norm_num [defaultLineArgs], by norm_num [defaultLineArgs], by decide⟩
  · intro Z n2 h49 hZ
    have hlen : Z.length ≤ 48 := by
      rw [hZ, sampleIndices_length]
      omega
    unfold lineConstructInitState
    rw [if_neg (by omega)]

/-- Witness for `c10_construct_index_error`: a 4-row CSV with the default
parameters. -/
theorem c10_construct_index_witness :
    (([[(1 : ℚ)], [2], [3], [4]] : List (List ℚ)).length
        = (sampleIndices 4 100).length
      ∧ (sampleIndices 4 100).length ≤ 3 * (100 / 6))
    ∧ lineConstructInitState [[(1 : ℚ)], [2], [3], [4]] 6 100
        = Except.error PyError.indexError :=
  ⟨⟨by decide, by decide⟩,
    (c10_construct_index_error [[(1 : ℚ)], [2], [3], [4]] 4 100 6 (by decide)
      (by decide)).1⟩

end ManimStock
